import Mathlib

/-!
Verification of the cloudtest execution engine
(`pkg/commands/execution_context.go`) against its specification.

The Go source is shallowly embedded: each Go function that a claim refers
to is translated into an executable Lean definition over explicit records,
and the claims are settled as theorems about those definitions.
-/

namespace Cloudtest

/-! ## Core data model -/

/-- `clusterState` from the source: lifecycle state of one cluster instance. -/
inductive ClusterState where
  | added
  | ready
  | busy
  | starting
  | stopping
  | crashed
  | notAvailable
  | shutdown
  deriving DecidableEq, Repr

/-- `model.Status` values used by the scheduler (test/task statuses). -/
inductive Status where
  | statusAdded
  | statusSuccess
  | statusFailed
  | statusTimeout
  | statusSkipped
  | statusSkippedSinceNoClusters
  | statusRerunRequest
  deriving DecidableEq, Repr

/-- `clusterInstance` from the source, restricted to the fields the verified
operations read or write.  `taskCancel` is modelled as a flag recording
whether a cancellation handle is installed (`nil` vs non-`nil`). -/
structure ClusterInstance where
  state : ClusterState
  startCount : Nat
  executions : List Nat
  taskCancel : Bool
  currentTask : String
  retestCounter : Nat
  deriving DecidableEq, Repr

/-- `clusterInstance.isDownOr(states...)`: the source appends
`shutdown, crashed, notAvailable` to the supplied states and tests whether
the current state is among them. -/
def isDownOr (extra : List ClusterState) (ci : ClusterInstance) : Bool :=
  (extra ++ [ClusterState.shutdown, ClusterState.crashed, ClusterState.notAvailable]).any
    (fun s => ci.state = s)

/-! ## `startCluster` (C1) -/

/-- Synchronous part of `executionContext.startCluster`.  Returns the updated
instance, the Go return value, and whether a concurrent starter goroutine was
spawned.  The source appends a fresh `clusterOperationRecord` (attempt number
still zero) before spawning the starter. -/
def startCluster (retryCount : Nat) (ci : ClusterInstance) :
    ClusterInstance × Bool × Bool :=
  if ci.state ≠ ClusterState.added ∧ ci.state ≠ ClusterState.crashed then
    (ci, true, false)
  else if retryCount < ci.startCount then
    ({ ci with state := ClusterState.notAvailable }, false, false)
  else
    ({ ci with state := ClusterState.starting, executions := ci.executions ++ [0] },
      true, true)

/-- First action of the spawned starter goroutine: under the scheduler lock it
increments `startCount` and stamps the attempt number into the operation
record appended by `startCluster`. -/
def starterBegin (ci : ClusterInstance) : ClusterInstance :=
  { ci with
    startCount := ci.startCount + 1,
    executions := ci.executions.dropLast ++ [ci.startCount + 1] }

/-! ## `destroyCluster` (C9) -/

/-- `executionContext.destroyCluster`.  External effects are abstracted:
`destroyFails` is the outcome of the provider `Destroy` call, the returned
`Bool` is whether a non-`nil` error is returned.  The guard returns
immediately when the instance is already down or currently starting; the
`fork` variant returns after storing `stopping` (the forked goroutine only
calls the provider), the synchronous variant stores `crashed` at the end. -/
def destroyCluster (fork destroyFails : Bool) (ci : ClusterInstance) :
    ClusterInstance × Bool :=
  if isDownOr [ClusterState.starting] ci then
    (ci, false)
  else if fork then
    ({ ci with state := ClusterState.stopping }, false)
  else
    ({ ci with state := ClusterState.crashed }, destroyFails)

/-! ## `makeInstancesReady` (C10) -/

/-- `clusterState.compareAndSwap` on the state word: the new state is stored
only when the current state equals the expected one. -/
def compareAndSwap (oldState newState cur : ClusterState) : ClusterState :=
  if cur = oldState then newState else cur

/-- Per-instance body of `executionContext.makeInstancesReady`: CAS the state
from `busy` to `ready`, clear the task cancellation handle and the current
task name. -/
def makeInstanceReady (ci : ClusterInstance) : ClusterInstance :=
  { ci with
    state := compareAndSwap ClusterState.busy ClusterState.ready ci.state,
    taskCancel := false,
    currentTask := "" }

/-- `executionContext.makeInstancesReady` over the list of bound instances. -/
def makeInstancesReady (insts : List ClusterInstance) : List ClusterInstance :=
  insts.map makeInstanceReady

/-! ## Scheduler transition system (C2)

Each action mirrors one code path that mutates a cluster instance's state or
start counter, taken atomically under the scheduler lock at its guard:
`selectClustersForTask`/`startCluster` (with the starter's increment), the
starter failure path, the monitor's first successful check, `startTask`
marking instances busy, task finalization (`makeInstancesReady`),
`destroyCluster`, and the idle shutdown in `checkClustersUsage`. -/

/-- Combined effect of `startCluster` and, when a starter goroutine was
spawned, its initial `startCount` increment. -/
def startStep (rc : Nat) (ci : ClusterInstance) : ClusterInstance :=
  let r := startCluster rc ci
  if r.2.2 then starterBegin r.1 else r.1

/-- Starter goroutine when the provider `Start` fails: store `stopping`, run
the synchronous destroy; if the destroy also errors, force
`StartCount := RetryCount + 1` (permanent failure). -/
def starterFail (rc : Nat) (destroyFails : Bool) (ci : ClusterInstance) :
    ClusterInstance :=
  if ci.state = ClusterState.starting then
    let r := destroyCluster false destroyFails { ci with state := ClusterState.stopping }
    if r.2 then { r.1 with startCount := rc + 1 } else r.1
  else ci

/-- First successful check of `monitorCluster`: the starting instance becomes
`ready`. -/
def monitorReadyStep (ci : ClusterInstance) : ClusterInstance :=
  if ci.state = ClusterState.starting then { ci with state := ClusterState.ready }
  else ci

/-- `startTask` marking a ready instance busy with the task's name
(instances handed to `startTask` were selected in the `ready` state by
`selectClustersForTask` under the same lock). -/
def assignStep (name : String) (ci : ClusterInstance) : ClusterInstance :=
  if ci.state = ClusterState.ready then
    { ci with state := ClusterState.busy, currentTask := name }
  else ci

/-- Per-instance body of `checkClustersUsage` once a group has no pending
tasks: instances that are busy or already down are skipped, the rest get a
forked destroy and are stored `shutdown`. -/
def shutdownIdleStep (df : Bool) (ci : ClusterInstance) : ClusterInstance :=
  if isDownOr [ClusterState.busy] ci then ci
  else { (destroyCluster true df ci).1 with state := ClusterState.shutdown }

/-- One scheduler-level action, naming the instance index it touches. -/
inductive Action where
  | start (i : Nat)
  | startFailA (i : Nat) (destroyFails : Bool)
  | monitorReady (i : Nat)
  | assign (i : Nat) (name : String)
  | finishTask (i : Nat)
  | destroy (i : Nat) (fork destroyFails : Bool)
  | shutdownIdle (i : Nat) (destroyFails : Bool)
  deriving DecidableEq, Repr

/-- Index of the instance an action touches. -/
def Action.idx : Action → Nat
  | .start i => i
  | .startFailA i _ => i
  | .monitorReady i => i
  | .assign i _ => i
  | .finishTask i => i
  | .destroy i _ _ => i
  | .shutdownIdle i _ => i

/-- Per-instance effect of an action, given the group's `RetryCount`. -/
def Action.stepFn : Action → Nat → ClusterInstance → ClusterInstance
  | .start _, rc, ci => startStep rc ci
  | .startFailA _ df, rc, ci => starterFail rc df ci
  | .monitorReady _, _, ci => monitorReadyStep ci
  | .assign _ name, _, ci => assignStep name ci
  | .finishTask _, _, ci => makeInstanceReady ci
  | .destroy _ fork df, _, ci => (destroyCluster fork df ci).1
  | .shutdownIdle _ df, _, ci => shutdownIdleStep df ci

/-- Replace the element at position `i` by its image under `f` (out-of-range
indices leave the list unchanged). -/
def updateAt (i : Nat) (f : α → α) : List α → List α
  | [] => []
  | x :: xs =>
    match i with
    | 0 => f x :: xs
    | n + 1 => x :: updateAt n f xs

/-- Scheduler state for one cluster group: the group's retry budget and its
instances. -/
structure SchedState where
  retryCount : Nat
  insts : List ClusterInstance
  deriving DecidableEq, Repr

/-- Apply one action to the scheduler state. -/
def applyAction (a : Action) (s : SchedState) : SchedState :=
  { s with insts := updateAt a.idx (a.stepFn s.retryCount) s.insts }

/-- Apply a sequence of actions in order. -/
def applyActions (l : List Action) (s : SchedState) : SchedState :=
  l.foldl (fun s a => applyAction a s) s

/-- Instance record as built by `createClusters`: state `added`, all counters
and handles zeroed. -/
def initInstance : ClusterInstance :=
  { state := ClusterState.added, startCount := 0, executions := [],
    taskCancel := false, currentTask := "", retestCounter := 0 }

/-- Initial scheduler state: `n` freshly added instances. -/
def initState (rc n : Nat) : SchedState :=
  { retryCount := rc, insts := List.replicate n initInstance }

/-- States reachable from the initial fleet by scheduler actions. -/
inductive Reachable (rc n : Nat) : SchedState → Prop where
  | init : Reachable rc n (initState rc n)
  | step {s : SchedState} (a : Action) :
      Reachable rc n s → Reachable rc n (applyAction a s)

/-- State of the instance at index `k`, when it exists. -/
def stateAt (s : SchedState) (k : Nat) : Option ClusterState :=
  s.insts[k]?.map (fun ci => ci.state)

/-! ## Task bookkeeping maps (C3)

`clustersGroup.tasks` and `clustersGroup.completed` are Go maps keyed by
`TestEntry.Key`; tasks are identified here by a numeric id. -/

/-- The two task maps of one `clustersGroup`. -/
structure GroupMaps where
  tasks : List (String × Nat)
  completed : List (String × Nat)
  deriving DecidableEq, Repr

/-- Go `delete(m, key)` on an association-list map. -/
def mapDelete (key : String) (m : List (String × Nat)) : List (String × Nat) :=
  m.filter (fun p => p.1 ≠ key)

/-- Go map assignment `m[key] = v` (overwrites any previous binding). -/
def mapInsert (key : String) (v : Nat) (m : List (String × Nat)) :
    List (String × Nat) :=
  mapDelete key m ++ [(key, v)]

/-- Go map read `m[key]`. -/
def mapLookup (key : String) (m : List (String × Nat)) : Option Nat :=
  (m.find? (fun p => p.1 = key)).map (fun p => p.2)

/-- Map updates of `processTaskUpdate`: when the task's status is `success`
or `failed`, every group of the task deletes the key from its `tasks` map and
only the group at index 0 records the task in `completed`; any other status
reschedules the task and leaves the maps untouched. -/
def processTaskUpdateMaps (st : Status) (key : String) (tid : Nat)
    (groups : List GroupMaps) : List GroupMaps :=
  if st = Status.statusSuccess ∨ st = Status.statusFailed then
    groups.enum.map (fun p =>
      { tasks := mapDelete key p.2.tasks,
        completed :=
          if p.1 = 0 then mapInsert key tid p.2.completed else p.2.completed })
  else groups

/-- Map updates of `skipTaskDueUnavailableClusters`: every group of the task
deletes the key from `tasks` and records the task in its `completed` map. -/
def skipTaskMaps (key : String) (tid : Nat) (groups : List GroupMaps) :
    List GroupMaps :=
  groups.map (fun cl =>
    { tasks := mapDelete key cl.tasks,
      completed := mapInsert key tid cl.completed })

/-! ## Test entries, suite splitting and task creation (C4, C5, C6) -/

/-- `model.TestEntry.Kind`. -/
inductive TestKind where
  | shellTestKind
  | goTestKind
  | suiteTestKind
  deriving DecidableEq, Repr

/-- Fields of `config.Execution` read during task creation. -/
structure ExecutionConfig where
  cfgName : String
  clusterSelector : List String
  clusterCount : Nat
  concurrencyRetry : Nat
  deriving DecidableEq, Repr

/-- `model.Suite`: a named collection of sub-test names. -/
structure Suite where
  suiteName : String
  tests : List String
  deriving DecidableEq, Repr

/-- One entry of `TestEntry.Executions`. -/
structure TestEntryExecution where
  status : Status
  retry : Nat
  outputFile : String
  deriving DecidableEq, Repr

/-- `model.TestEntry`, restricted to the fields task creation and the task
supervisor read or write. -/
structure TestEntry where
  kind : TestKind
  name : String
  tags : String
  key : String
  status : Status
  suite : Option Suite
  runScript : String
  executions : List TestEntryExecution
  cfg : ExecutionConfig
  deriving DecidableEq, Repr

/-- Child entry built inside the `splitTest` loop for index `i` (1-based in
the generated name): a fresh copy of the entry's scalar fields, empty
executions, zeroed key, and a fresh suite holding the given sub-test slice. -/
def mkSplitEntry (test : TestEntry) (sn : String) (i1 : Nat)
    (subTests : List String) : TestEntry :=
  { kind := test.kind, name := test.name ++ toString i1, tags := test.tags,
    key := "", status := test.status,
    suite := some { suiteName := sn, tests := subTests },
    runScript := test.runScript, executions := [], cfg := test.cfg }

/-- Loop body of `splitTest` starting at index `i` with `fuel` iterations
left (`fuel + i` equals the instance count `n` at every call).  The loop
returns early with the whole remaining slice when it would not fill another
full chunk or when the last instance is reached. -/
def splitLoop (test : TestEntry) (sn : String) (tests : List String)
    (cpi n : Nat) : Nat → Nat → List TestEntry
  | _, 0 => []
  | i, fuel + 1 =>
    if tests.length - (i + 1) * cpi < cpi ∨ i + 1 = n then
      [mkSplitEntry test sn (i + 1) (tests.drop (i * cpi))]
    else
      mkSplitEntry test sn (i + 1) ((tests.drop (i * cpi)).take cpi) ::
        splitLoop test sn tests cpi n (i + 1) fuel

/-- `executionContext.splitTest` against a group with `n` instances: an entry
without a suite is returned unchanged; otherwise the suite's sub-tests are
chunked with `count_per_instance = len/n`, raised to `MinSuiteSize`. -/
def splitTest (minSuiteSize : Nat) (test : TestEntry) (n : Nat) :
    List TestEntry :=
  match test.suite with
  | none => [test]
  | some su =>
    let cpi0 := su.tests.length / n
    let cpi := if cpi0 < minSuiteSize then minSuiteSize else cpi0
    splitLoop test su.suiteName su.tests cpi n 0 n

/-- Fixture: the spec's suite-splitting example, a suite of 10 sub-tests. -/
def exampleSuite : Suite :=
  { suiteName := "s", tests := ["a", "b", "c", "d", "e", "f", "g", "h", "i", "j"] }

/-- Fixture: a suite-kind entry carrying `exampleSuite`. -/
def exampleSuiteEntry : TestEntry :=
  { kind := TestKind.suiteTestKind, name := "t", tags := "", key := "",
    status := Status.statusAdded, suite := some exampleSuite, runScript := "",
    executions := [],
    cfg := { cfgName := "", clusterSelector := [], clusterCount := 1,
             concurrencyRetry := 0 } }

/-- Sub-tests carried by an entry's suite (empty when there is none). -/
def suiteTestsOf (e : TestEntry) : List String :=
  match e.suite with
  | some s => s.tests
  | none => []

/-- Concatenation of the sub-test slices of a list of entries. -/
def joinSuiteTests (l : List TestEntry) : List String :=
  l.foldr (fun e acc => suiteTestsOf e ++ acc) []

/-- `testTask`: tasks are identified by their numeric `taskID`; the bound
cluster groups are identified by name. -/
structure TaskC where
  taskID : Nat
  test : TestEntry
  clusters : List String
  clusterTaskID : String
  deriving DecidableEq, Repr

/-- `clustersGroup` as seen by task creation: its configured name, its
instance count, and its `tasks` map (key to task id). -/
structure GroupC where
  name : String
  instCount : Nat
  tasksMap : List (String × Nat)
  deriving DecidableEq, Repr

/-- The parts of `executionContext` mutated during task creation:
the cluster groups, the store of all created tasks (indexed by task id),
the pending queue `tasks`, the `skipped` list and the `--count` argument. -/
structure CreateCtx where
  clusters : List GroupC
  store : List TaskC
  tasks : List Nat
  skipped : List Nat
  minSuiteSize : Nat
  countArg : Int
  deriving DecidableEq, Repr

/-- `executionContext.createSingleTask`: build the task with a fresh copy of
the entry, derive its key from the cluster selector and the test name,
register it in the cluster's task map, then either queue it or — when
`--count` is positive and the source-entry index has reached it — mark the
*source entry* skipped and record the task in the skipped list.  The second
component returns the (possibly mutated) entry, mirroring the Go pointer
argument. -/
def createSingleTask (ctx : CreateCtx) (taskIndex : Nat) (test : TestEntry)
    (clusterIdx : Nat) (cluster : GroupC) (taskOrderIndex : Nat) :
    CreateCtx × TestEntry :=
  let testKey := String.intercalate ("_") test.cfg.clusterSelector
  let newTest : TestEntry :=
    { kind := test.kind, name := test.name, tags := test.tags,
      key := testKey ++ "_" ++ test.name, status := test.status,
      suite := test.suite, runScript := test.runScript,
      executions := [], cfg := test.cfg }
  let task : TaskC :=
    { taskID := taskIndex, test := newTest, clusters := [cluster.name],
      clusterTaskID := "" }
  let ctx1 : CreateCtx :=
    { ctx with
      clusters := updateAt clusterIdx
        (fun g => { g with tasksMap := mapInsert newTest.key taskIndex g.tasksMap })
        ctx.clusters,
      store := ctx.store ++ [task] }
  if 0 < ctx.countArg ∧ ctx.countArg ≤ (taskOrderIndex : Int) then
    ({ ctx1 with skipped := ctx1.skipped ++ [taskIndex] },
      { test with status := Status.statusSkipped })
  else
    ({ ctx1 with tasks := ctx1.tasks ++ [taskIndex] }, test)

/-- `updateTaskStatus` closure of `createTask`: a task bound to fewer groups
than the entry requires is marked skipped, otherwise its `clusterTaskID` is
derived from its group names. -/
def updateTaskStatus (clusterCount : Nat) (ctx : CreateCtx) (tid : Nat) :
    CreateCtx :=
  { ctx with
    store := updateAt tid (fun task =>
      if task.clusters.length < clusterCount then
        { task with test := { task.test with status := Status.statusSkipped } }
      else
        { task with clusterTaskID := String.intercalate ("_") task.clusters })
      ctx.store }

/-- Multi-cluster branch of `createTask`, subsequent matched group: append
the group to an existing task's binding and register the task in the group's
map. -/
def appendClusterToTask (cluster : GroupC) (clusterIdx : Nat)
    (ctx : CreateCtx) (tid : Nat) : CreateCtx :=
  let key := (ctx.store[tid]?.map (fun t => t.test.key)).getD ("")
  { ctx with
    store := updateAt tid (fun t => { t with clusters := t.clusters ++ [cluster.name] })
      ctx.store,
    clusters := updateAt clusterIdx
      (fun g => { g with tasksMap := mapInsert key tid g.tasksMap }) ctx.clusters }

/-- First cluster group whose configured name matches, with its index. -/
def findCluster (name : String) (groups : List GroupC) : Option (Nat × GroupC) :=
  groups.enum.find? (fun p => p.2.name = name)

/-- Split-entry loop of the single-cluster branch of `createTask`: create a
task per split child and apply `updateTaskStatus` to it immediately.  When
the entry has no suite, `splitTest` returned the entry itself, so its cap
mutation is threaded onwards. -/
def splitsLoopSingle (clusterCount taskOrderIndex clusterIdx : Nat)
    (cluster : GroupC) (suiteAbsent : Bool) :
    CreateCtx → TestEntry → Nat → List TestEntry → CreateCtx × TestEntry × Nat
  | ctx, entry, ti, [] => (ctx, entry, ti)
  | ctx, entry, ti, t :: rest =>
    let r := createSingleTask ctx ti t clusterIdx cluster taskOrderIndex
    let ctx2 := updateTaskStatus clusterCount r.1 ti
    splitsLoopSingle clusterCount taskOrderIndex clusterIdx cluster suiteAbsent
      ctx2 (if suiteAbsent then r.2 else entry) (ti + 1) rest

/-- Cluster loop of the single-cluster branch of `createTask`: for every
group matching the selector (every group when the selector is empty), split
the entry against the group and create one task per split child. -/
def clustersLoopSingle (minSuite clusterCount taskOrderIndex : Nat)
    (selector : List String) :
    CreateCtx → TestEntry → Nat → List Nat → CreateCtx × TestEntry × Nat
  | ctx, entry, ti, [] => (ctx, entry, ti)
  | ctx, entry, ti, i :: rest =>
    match ctx.clusters[i]? with
    | none =>
      clustersLoopSingle minSuite clusterCount taskOrderIndex selector
        ctx entry ti rest
    | some cluster =>
      if (selector ≠ [] ∧ selector.contains cluster.name) ∨ selector = [] then
        let r := splitsLoopSingle clusterCount taskOrderIndex i cluster
          (entry.suite.isNone)
          ctx entry ti (splitTest minSuite entry cluster.instCount)
        clustersLoopSingle minSuite clusterCount taskOrderIndex selector
          r.1 r.2.1 r.2.2 rest
      else
        clustersLoopSingle minSuite clusterCount taskOrderIndex selector
          ctx entry ti rest

/-- Split-entry loop of the multi-cluster branch of `createTask` on the first
matched group: create one task per split child (status updates are deferred)
and collect the created task ids. -/
def splitsLoopMulti (taskOrderIndex clusterIdx : Nat) (cluster : GroupC)
    (suiteAbsent : Bool) :
    CreateCtx → TestEntry → Nat → List Nat → List TestEntry →
      CreateCtx × TestEntry × Nat × List Nat
  | ctx, entry, ti, tids, [] => (ctx, entry, ti, tids)
  | ctx, entry, ti, tids, t :: rest =>
    let r := createSingleTask ctx ti t clusterIdx cluster taskOrderIndex
    splitsLoopMulti taskOrderIndex clusterIdx cluster suiteAbsent
      r.1 (if suiteAbsent then r.2 else entry) (ti + 1) (tids ++ [ti]) rest

/-- Selector loop of the multi-cluster branch of `createTask`: the first
matched group spawns the tasks, every further matched group is appended to
each existing task's binding; unmatched names are silently dropped. -/
def selectorLoopMulti (minSuite clusterCount taskOrderIndex : Nat) :
    CreateCtx → TestEntry → Nat → List Nat → List String →
      CreateCtx × TestEntry × Nat × List Nat
  | ctx, entry, ti, tids, [] => (ctx, entry, ti, tids)
  | ctx, entry, ti, tids, name :: rest =>
    match findCluster name ctx.clusters with
    | none =>
      selectorLoopMulti minSuite clusterCount taskOrderIndex ctx entry ti tids rest
    | some (ci, cluster) =>
      if tids = [] then
        let r := splitsLoopMulti taskOrderIndex ci cluster (entry.suite.isNone)
          ctx entry ti tids (splitTest minSuite entry cluster.instCount)
        selectorLoopMulti minSuite clusterCount taskOrderIndex
          r.1 r.2.1 r.2.2.1 r.2.2.2 rest
      else
        selectorLoopMulti minSuite clusterCount taskOrderIndex
          (tids.foldl (appendClusterToTask cluster ci) ctx) entry ti tids rest

/-- `executionContext.createTask`: multi-cluster entries walk the selector,
with the deferred `updateTaskStatus` calls applied (in LIFO order) on return;
single-cluster entries create one task per matching group.  Returns the
updated context, the (possibly cap-mutated) entry and the next task index. -/
def createTask (ctx : CreateCtx) (entry : TestEntry) (ti taskOrderIndex : Nat) :
    CreateCtx × TestEntry × Nat :=
  if 1 < entry.cfg.clusterCount then
    let r := selectorLoopMulti ctx.minSuiteSize entry.cfg.clusterCount
      taskOrderIndex ctx entry ti [] entry.cfg.clusterSelector
    (r.2.2.2.reverse.foldl (updateTaskStatus entry.cfg.clusterCount) r.1,
      r.2.1, r.2.2.1)
  else
    clustersLoopSingle ctx.minSuiteSize entry.cfg.clusterCount taskOrderIndex
      entry.cfg.clusterSelector ctx entry ti
      (List.range ctx.clusters.length)

/-- `ConcurrencyRetry` loop of `createTasks`: after each copy the *source
entry's* key is suffixed with the copy index (the created tasks' keys are
computed independently inside `createSingleTask`). -/
def concRetryLoop (taskOrderIndex : Nat) :
    CreateCtx → TestEntry → Nat → Nat → Nat → CreateCtx × Nat
  | ctx, _, ti, _, 0 => (ctx, ti)
  | ctx, entry, ti, j, fuel + 1 =>
    let r := createTask ctx entry ti taskOrderIndex
    concRetryLoop taskOrderIndex r.1
      { r.2.1 with key := r.2.1.key ++ "-" ++ toString j } r.2.2 (j + 1) fuel

/-- Loop of `executionContext.createTasks` over the discovered test entries,
threading the running task index. -/
def createTasksLoop : CreateCtx → Nat → Nat → List TestEntry → CreateCtx × Nat
  | ctx, ti, _, [] => (ctx, ti)
  | ctx, ti, orderIdx, entry :: rest =>
    let r :=
      if 0 < entry.cfg.concurrencyRetry then
        concRetryLoop orderIdx ctx entry ti 0 entry.cfg.concurrencyRetry
      else
        let r0 := createTask ctx entry ti orderIdx
        (r0.1, r0.2.2)
    createTasksLoop r.1 r.2 (orderIdx + 1) rest

/-- `executionContext.createTasks`. -/
def createTasks (ctx : CreateCtx) (tests : List TestEntry) : CreateCtx :=
  (createTasksLoop ctx 0 0 tests).1

/-- Frame of a task-creation step taken entirely in the capped region (every
processed entry's source index has reached `--count`): the pending queue is
untouched, exactly the newly created task ids — the new store positions, in
order — are appended to the skipped list, and the cap-relevant context fields
are preserved. -/
def CapSkipFrame (ctx ctx' : CreateCtx) (ti ti' : Nat) : Prop :=
  ctx'.tasks = ctx.tasks ∧
  ctx'.skipped = ctx.skipped ++ List.range' ti (ti' - ti) ∧
  ctx'.store.length = ti' ∧
  ti ≤ ti' ∧
  ctx'.countArg = ctx.countArg ∧
  ctx'.minSuiteSize = ctx.minSuiteSize

/-- Frame of an arbitrary task-creation step: the running task index tracks
the store length and the cap-relevant context fields are preserved. -/
def CreateFrame (ctx ctx' : CreateCtx) (ti ti' : Nat) : Prop :=
  (ti = ctx.store.length → ti' = ctx'.store.length) ∧
  ctx'.countArg = ctx.countArg ∧
  ctx'.minSuiteSize = ctx.minSuiteSize

/-- Fixture: a one-instance cluster group named `c`. -/
def crGroup : GroupC := { name := "c", instCount := 1, tasksMap := [] }

/-- Fixture: a creation context with the single group `c` and no count cap. -/
def crCtx : CreateCtx :=
  { clusters := [crGroup], store := [], tasks := [], skipped := [],
    minSuiteSize := 1, countArg := -1 }

/-- Fixture: a go-test entry targeting `c` with `ConcurrencyRetry = 2`. -/
def crEntry : TestEntry :=
  { kind := TestKind.goTestKind, name := "t", tags := "", key := "",
    status := Status.statusAdded, suite := none, runScript := "",
    executions := [],
    cfg := { cfgName := "e", clusterSelector := ["c"], clusterCount := 1,
             concurrencyRetry := 2 } }

/-- Fixture: first of two one-instance groups. -/
def capGroup1 : GroupC := { name := "c1", instCount := 1, tasksMap := [] }

/-- Fixture: second of two one-instance groups. -/
def capGroup2 : GroupC := { name := "c2", instCount := 1, tasksMap := [] }

/-- Fixture: a creation context with two groups and `--count 1`. -/
def capCtx : CreateCtx :=
  { clusters := [capGroup1, capGroup2], store := [], tasks := [], skipped := [],
    minSuiteSize := 1, countArg := 1 }

/-- Fixture: a go-test entry with an empty selector (runs on every group). -/
def capEntryA : TestEntry :=
  { kind := TestKind.goTestKind, name := "t0", tags := "", key := "",
    status := Status.statusAdded, suite := none, runScript := "",
    executions := [],
    cfg := { cfgName := "e", clusterSelector := [], clusterCount := 1,
             concurrencyRetry := 0 } }

/-- Fixture: a second such entry. -/
def capEntryB : TestEntry :=
  { kind := TestKind.goTestKind, name := "t1", tags := "", key := "",
    status := Status.statusAdded, suite := none, runScript := "",
    executions := [],
    cfg := { cfgName := "e", clusterSelector := [], clusterCount := 1,
             concurrencyRetry := 0 } }

/-! ## Report generation (C7) -/

/-- A JUnit test case as produced by `generateTestCaseReport`: at most one of
a failure or a skip message. -/
structure TestCaseR where
  name : String
  failureMsg : Option String
  skipMsg : Option String
  deriving DecidableEq, Repr

/-- A completed task as seen by the report generator: its test's terminal
status and skip message, and per required cluster group the states of the
group's instances. -/
structure ReportTask where
  name : String
  status : Status
  skipMessage : String
  groups : List (List ClusterState)
  deriving DecidableEq, Repr

/-- `executionContext.hasFailedCluster`: some required group has every
instance in state `not-available`. -/
def hasFailedCluster (task : ReportTask) : Bool :=
  task.groups.any (fun insts =>
    (insts.countP (fun st => st = ClusterState.notAvailable)) = insts.length)

/-- `executionContext.generateTestCaseReport`, keeping the emitted test case
and the updated totals (tests, failures); file contents are abstracted to the
failure message. -/
def generateTestCaseReport (task : ReportTask) (totalTests failures : Nat) :
    TestCaseR × Nat × Nat :=
  let base : TestCaseR := { name := task.name, failureMsg := none, skipMsg := none }
  let failedMsg := "Test execution failed " ++ task.name
  let capMsg := "By limit of number of tests to run"
  let noClustersMsg := "No clusters are available, all clusters reached restart limits..."
  match task.status with
  | Status.statusFailed =>
    ({ base with failureMsg := some failedMsg }, totalTests + 1, failures + 1)
  | Status.statusTimeout =>
    ({ base with failureMsg := some failedMsg }, totalTests + 1, failures + 1)
  | Status.statusSkipped =>
    ({ base with skipMsg := some (if task.skipMessage ≠ "" then task.skipMessage else capMsg) },
      totalTests + 1, failures)
  | Status.statusSkippedSinceNoClusters =>
    if hasFailedCluster task then
      ({ base with skipMsg := some noClustersMsg }, totalTests + 1, failures)
    else
      ({ base with failureMsg := some noClustersMsg }, totalTests + 1, failures + 1)
  | _ => (base, totalTests + 1, failures)

/-! ## Task supervisor status decision (C8) -/

/-- `config.RetestConfig` fields read by `executeTask`. -/
structure RetestConfig where
  patterns : List String
  restartCount : Nat
  allowedRetests : Nat
  retestFailResult : String
  deriving DecidableEq, Repr

/-- Status decision structure of `executeTask` once the runner has returned:
`runFailed` is whether the runner errored, `matched` the outcome of
`matchRestartRequest` on the attempt log, `execCount` the number of prior
executions, `anyClusterDead` whether some bound instance failed its liveness
probe afterwards. -/
def executeTaskStatus (cfg : RetestConfig) (runFailed matched : Bool)
    (execCount : Nat) (anyClusterDead : Bool) : Status :=
  if runFailed ∧ cfg.patterns.length > 0 ∧ cfg.restartCount > 0 ∧ matched then
    if execCount < cfg.restartCount then Status.statusRerunRequest
    else if cfg.retestFailResult = "skip" then Status.statusSkipped
    else Status.statusFailed
  else if runFailed then
    if anyClusterDead then Status.statusTimeout else Status.statusFailed
  else Status.statusSuccess

/-- `executionContext.updateTestExecution`: store the status on the entry,
append the execution record, and (abstracted) emit the task-update event
carrying the same status. -/
def updateTestExecution (t : TestEntry) (fileName : String) (st : Status) :
    TestEntry :=
  { t with
    status := st,
    executions := t.executions ++
      [{ status := st, retry := t.executions.length + 1, outputFile := fileName }] }

end Cloudtest

namespace Cloudtest

/-! ## Claim theorems for C1, C9, C10 -/

/-- C1: `startCluster` follows the admission rule: a state outside
{added, crashed} is a no-op returning true; with the start budget exhausted
(`StartCount > RetryCount`) the instance becomes `not-available` and false is
returned; otherwise the state becomes `starting`, a starter is spawned whose
first action increments `StartCount`, and true is returned. -/
theorem startCluster_admission (rc : Nat) (ci : ClusterInstance) :
    (ci.state ≠ ClusterState.added → ci.state ≠ ClusterState.crashed →
      startCluster rc ci = (ci, true, false)) ∧
    ((ci.state = ClusterState.added ∨ ci.state = ClusterState.crashed) →
      rc < ci.startCount →
      startCluster rc ci =
        ({ ci with state := ClusterState.notAvailable }, false, false)) ∧
    ((ci.state = ClusterState.added ∨ ci.state = ClusterState.crashed) →
      ci.startCount ≤ rc →
      (startCluster rc ci).1.state = ClusterState.starting ∧
      (startCluster rc ci).2.1 = true ∧
      (startCluster rc ci).2.2 = true ∧
      (starterBegin (startCluster rc ci).1).startCount = ci.startCount + 1) := by
  refine ⟨?_, ?_, ?_⟩
  · intro h1 h2
    simp [startCluster, h1, h2]
  · intro hst hcnt
    have h : ¬(ci.state ≠ ClusterState.added ∧ ci.state ≠ ClusterState.crashed) := by
      rcases hst with h | h <;> simp [h]
    simp [startCluster, h, hcnt]
  · intro hst hcnt
    have h : ¬(ci.state ≠ ClusterState.added ∧ ci.state ≠ ClusterState.crashed) := by
      rcases hst with h | h <;> simp [h]
    have h2 : ¬ rc < ci.startCount := Nat.not_lt.mpr hcnt
    simp [startCluster, h, h2, starterBegin]

/-- Witness for C1 at a concrete instance in state `added` with budget left. -/
theorem startCluster_admission_witness :
    (ClusterState.added = ClusterState.added ∨
      ClusterState.added = ClusterState.crashed) ∧
    (({ state := ClusterState.added, startCount := 0, executions := [],
        taskCancel := false, currentTask := "", retestCounter := 0 } :
          ClusterInstance).startCount ≤ 2) ∧
    (startCluster 2
        { state := ClusterState.added, startCount := 0, executions := [],
          taskCancel := false, currentTask := "", retestCounter := 0 }).1.state =
      ClusterState.starting :=
  ⟨Or.inl rfl, by decide,
    ((startCluster_admission 2
      { state := ClusterState.added, startCount := 0, executions := [],
        taskCancel := false, currentTask := "", retestCounter := 0 }).2.2
      (Or.inl rfl) (by decide)).1⟩

/-- C9: destroying an instance that is already down (shutdown, crashed or
not-available) or currently starting is an immediate no-op: it returns `nil`
and leaves every field of the instance unchanged, and repeating the call
gives the same result. -/
theorem destroyCluster_idempotent_on_down (fork destroyFails : Bool)
    (ci : ClusterInstance)
    (h : ci.state = ClusterState.shutdown ∨ ci.state = ClusterState.crashed ∨
      ci.state = ClusterState.notAvailable ∨ ci.state = ClusterState.starting) :
    destroyCluster fork destroyFails ci = (ci, false) ∧
    destroyCluster fork destroyFails (destroyCluster fork destroyFails ci).1 =
      (ci, false) := by
  have hguard : isDownOr [ClusterState.starting] ci = true := by
    rcases h with h | h | h | h <;> simp [isDownOr, h]
  constructor
  · simp [destroyCluster, hguard]
  · simp [destroyCluster, hguard]

/-- Witness for C9 at a concrete `not-available` instance. -/
theorem destroyCluster_idempotent_on_down_witness :
    (ClusterState.notAvailable = ClusterState.shutdown ∨
      ClusterState.notAvailable = ClusterState.crashed ∨
      ClusterState.notAvailable = ClusterState.notAvailable ∨
      ClusterState.notAvailable = ClusterState.starting) ∧
    destroyCluster false true
        { state := ClusterState.notAvailable, startCount := 3, executions := [1],
          taskCancel := false, currentTask := "", retestCounter := 0 } =
      ({ state := ClusterState.notAvailable, startCount := 3, executions := [1],
         taskCancel := false, currentTask := "", retestCounter := 0 }, false) :=
  ⟨Or.inr (Or.inr (Or.inl rfl)),
    (destroyCluster_idempotent_on_down false true
      { state := ClusterState.notAvailable, startCount := 3, executions := [1],
        taskCancel := false, currentTask := "", retestCounter := 0 }
      (Or.inr (Or.inr (Or.inl rfl)))).1⟩

/-- C10: `makeInstancesReady` maps each bound instance through a
compare-and-swap: the state becomes `ready` exactly when it was `busy`,
any other state (crashed, stopping, shutdown, ...) is kept; the task
cancellation handle and current-task name are cleared unconditionally and
every other field is untouched. -/
theorem makeInstancesReady_cas (insts : List ClusterInstance) :
    makeInstancesReady insts = insts.map makeInstanceReady ∧
    ∀ ci ∈ insts,
      ((ci.state = ClusterState.busy →
          (makeInstanceReady ci).state = ClusterState.ready) ∧
        (ci.state ≠ ClusterState.busy →
          (makeInstanceReady ci).state = ci.state)) ∧
      (makeInstanceReady ci).taskCancel = false ∧
      (makeInstanceReady ci).currentTask = "" ∧
      (makeInstanceReady ci).startCount = ci.startCount ∧
      (makeInstanceReady ci).executions = ci.executions ∧
      (makeInstanceReady ci).retestCounter = ci.retestCounter := by
  refine ⟨rfl, ?_⟩
  intro ci _
  refine ⟨⟨?_, ?_⟩, rfl, rfl, rfl, rfl, rfl⟩
  · intro h
    simp [makeInstanceReady, compareAndSwap, h]
  · intro h
    simp [makeInstanceReady, compareAndSwap, h]

/-! ### Scheduler invariant (C2) -/

theorem updateAt_get_eq (f : α → α) :
    ∀ (i j : Nat) (l : List α),
      (updateAt i f l)[j]? = if j = i then l[j]?.map f else l[j]? := by
  intro i j l
  induction l generalizing i j with
  | nil => simp [updateAt]
  | cons x xs ih =>
    cases i with
    | zero =>
      cases j with
      | zero => simp [updateAt]
      | succ m => simp [updateAt]
    | succ n =>
      cases j with
      | zero => simp [updateAt]
      | succ m =>
        simp only [updateAt, List.getElem?_cons_succ]
        rw [ih n m]
        by_cases h : m = n
        · simp [h]
        · have h2 : ¬(m + 1 = n + 1) := fun hh => h (Nat.succ_injective hh)
          simp [h, h2]

theorem mem_updateAt {x : α} (f : α → α) (i : Nat) (l : List α)
    (h : x ∈ updateAt i f l) : x ∈ l ∨ ∃ y ∈ l, x = f y := by
  induction l generalizing i with
  | nil => simp [updateAt] at h
  | cons a l ih =>
    cases i with
    | zero =>
      rcases (List.mem_cons.mp h) with h | h
      · exact Or.inr ⟨a, List.mem_cons_self a l, h⟩
      · exact Or.inl (List.mem_cons_of_mem a h)
    | succ n =>
      rcases (List.mem_cons.mp h) with h | h
      · exact Or.inl (h ▸ List.mem_cons_self a l)
      · rcases ih n h with h | ⟨y, hy, hxy⟩
        · exact Or.inl (List.mem_cons_of_mem a h)
        · exact Or.inr ⟨y, List.mem_cons_of_mem a hy, hxy⟩

theorem stepFn_startCount (a : Action) (rc : Nat) (ci : ClusterInstance)
    (h : ci.startCount ≤ rc + 1) : (a.stepFn rc ci).startCount ≤ rc + 1 := by
  cases a with
  | start i =>
    by_cases h1 : ci.state ≠ ClusterState.added ∧ ci.state ≠ ClusterState.crashed
    · simp [Action.stepFn, startStep, startCluster, h1, h]
    · by_cases h2 : rc < ci.startCount
      · simp [Action.stepFn, startStep, startCluster, h1, h2, h]
      · simp [Action.stepFn, startStep, startCluster, h1, h2, starterBegin]
        omega
  | startFailA i df =>
    by_cases hs : ci.state = ClusterState.starting
    · cases df <;> simp [Action.stepFn, starterFail, hs, destroyCluster, isDownOr, h]
    · simp [Action.stepFn, starterFail, hs, h]
  | monitorReady i =>
    by_cases hs : ci.state = ClusterState.starting <;>
      simp [Action.stepFn, monitorReadyStep, hs, h]
  | assign i name =>
    by_cases hs : ci.state = ClusterState.ready <;>
      simp [Action.stepFn, assignStep, hs, h]
  | finishTask i => simpa [Action.stepFn, makeInstanceReady] using h
  | destroy i fork df =>
    by_cases hg : isDownOr [ClusterState.starting] ci
    · simp [Action.stepFn, destroyCluster, hg, h]
    · cases fork <;> simp [Action.stepFn, destroyCluster, hg, h]
  | shutdownIdle i df =>
    by_cases hg : isDownOr [ClusterState.busy] ci
    · simp [Action.stepFn, shutdownIdleStep, hg, h]
    · by_cases hg2 : isDownOr [ClusterState.starting] ci <;>
        simp [Action.stepFn, shutdownIdleStep, hg, hg2, destroyCluster, h]

theorem stepFn_notAvailable (a : Action) (rc : Nat) (ci : ClusterInstance)
    (h : ci.state = ClusterState.notAvailable) :
    (a.stepFn rc ci).state = ClusterState.notAvailable := by
  cases a with
  | start i => simp [Action.stepFn, startStep, startCluster, h]
  | startFailA i df => simp [Action.stepFn, starterFail, h]
  | monitorReady i => simp [Action.stepFn, monitorReadyStep, h]
  | assign i name => simp [Action.stepFn, assignStep, h]
  | finishTask i => simp [Action.stepFn, makeInstanceReady, compareAndSwap, h]
  | destroy i fork df => simp [Action.stepFn, destroyCluster, isDownOr, h]
  | shutdownIdle i df => simp [Action.stepFn, shutdownIdleStep, isDownOr, h]

theorem applyAction_retryCount (a : Action) (s : SchedState) :
    (applyAction a s).retryCount = s.retryCount := rfl

theorem reachable_retryCount {rc n : Nat} {s : SchedState}
    (h : Reachable rc n s) : s.retryCount = rc := by
  induction h with
  | init => rfl
  | step a _ ih => simpa [applyAction_retryCount] using ih

theorem reachable_startCount {rc n : Nat} {s : SchedState}
    (h : Reachable rc n s) : ∀ ci ∈ s.insts, ci.startCount ≤ rc + 1 := by
  induction h with
  | init =>
    intro ci hci
    have := List.eq_of_mem_replicate hci
    simp [this, initInstance]
  | step a hs ih =>
    intro ci hci
    rcases mem_updateAt _ _ _ hci with hmem | ⟨y, hy, hxy⟩
    · exact ih ci hmem
    · subst hxy
      have hrc : _ = rc := reachable_retryCount hs
      rw [hrc]
      exact stepFn_startCount a rc y (ih y hy)

theorem absorb_action (a : Action) (s : SchedState) (k : Nat)
    (h : stateAt s k = some ClusterState.notAvailable) :
    stateAt (applyAction a s) k = some ClusterState.notAvailable := by
  unfold stateAt at *
  unfold applyAction
  simp only []
  rw [updateAt_get_eq]
  by_cases hk : k = a.idx
  · simp only [hk, if_pos rfl]
    rcases Option.map_eq_some'.mp h with ⟨ci, hci, hst⟩
    rw [hk] at hci
    simp [hci, stepFn_notAvailable a _ ci hst]
  · simpa [hk] using h

theorem absorb_actions (l : List Action) (s : SchedState) (k : Nat)
    (h : stateAt s k = some ClusterState.notAvailable) :
    stateAt (applyActions l s) k = some ClusterState.notAvailable := by
  induction l generalizing s with
  | nil => simpa [applyActions] using h
  | cons a l ih =>
    have : applyActions (a :: l) s = applyActions l (applyAction a s) := rfl
    rw [this]
    exact ih (applyAction a s) (absorb_action a s k h)

/-- C2: in every reachable scheduler state each instance's `StartCount` is at
most `RetryCount + 1`, and an instance that has reached `not-available` stays
`not-available` under every further sequence of scheduler operations — in
particular it is never assigned a task (never `busy`) and never started again
(never `starting`). -/
theorem cluster_fleet_invariant (rc n : Nat) (s : SchedState)
    (h : Reachable rc n s) :
    (∀ ci ∈ s.insts, ci.startCount ≤ rc + 1) ∧
    ∀ k, stateAt s k = some ClusterState.notAvailable →
      ∀ acts : List Action,
        stateAt (applyActions acts s) k = some ClusterState.notAvailable ∧
        stateAt (applyActions acts s) k ≠ some ClusterState.busy ∧
        stateAt (applyActions acts s) k ≠ some ClusterState.starting := by
  refine ⟨reachable_startCount h, ?_⟩
  intro k hk acts
  have habs := absorb_actions acts s k hk
  refine ⟨habs, ?_, ?_⟩ <;> simp [habs]

/-- Witness for C2: with `RetryCount = 0` and one instance, the action
sequence start / start-failure / start drives the instance to
`not-available`, where it remains across further operations (including an
attempted assignment). -/
theorem cluster_fleet_invariant_witness :
    Reachable 0 1
      (applyActions [Action.start 0, Action.startFailA 0 false, Action.start 0]
        (initState 0 1)) ∧
    stateAt
      (applyActions [Action.start 0, Action.startFailA 0 false, Action.start 0]
        (initState 0 1)) 0 = some ClusterState.notAvailable ∧
    stateAt
      (applyActions [Action.assign 0 ("TestX"), Action.start 0]
        (applyActions [Action.start 0, Action.startFailA 0 false, Action.start 0]
          (initState 0 1))) 0 = some ClusterState.notAvailable := by
  have hreach : Reachable 0 1
      (applyActions [Action.start 0, Action.startFailA 0 false, Action.start 0]
        (initState 0 1)) :=
    Reachable.step (Action.start 0)
      (Reachable.step (Action.startFailA 0 false)
        (Reachable.step (Action.start 0) Reachable.init))
  refine ⟨hreach, by decide, ?_⟩
  exact ((cluster_fleet_invariant 0 1 _ hreach).2 0 (by decide)
    [Action.assign 0 ("TestX"), Action.start 0]).1

/-! ### Completed-map recording (C3) -/

/-- C3 counterexample: a task spanning two groups, terminally marked
`skipped-no-clusters`, is recorded in the *second* group's completed map as
well — refuting the claim that on this path the other groups only have the
task removed from their `tasks` maps. -/
theorem skipTask_records_in_second_group :
    ((skipTaskMaps ("k") 7
        [{ tasks := [(("k"), 7)], completed := [] },
         { tasks := [(("k"), 7)], completed := [] }])[1]?.map
      (fun g => mapLookup ("k") g.completed)) = some (some 7) := by
  decide

/-- C3 (amended): when a task reaches `success`/`failed`, every one of its
groups deletes it from `tasks` and only the first group records it in
`completed`; any other status leaves the maps unchanged; on the
skipped-no-clusters path every group both deletes it from `tasks` and records
it in its own `completed`. -/
theorem completedMap_recording (key : String) (tid : Nat)
    (groups : List GroupMaps) :
    (∀ st : Status, st = Status.statusSuccess ∨ st = Status.statusFailed →
      ∀ (i : Nat) (g : GroupMaps), groups[i]? = some g →
        (processTaskUpdateMaps st key tid groups)[i]? =
          some { tasks := mapDelete key g.tasks,
                 completed := if i = 0 then mapInsert key tid g.completed
                              else g.completed }) ∧
    (∀ st : Status, ¬(st = Status.statusSuccess ∨ st = Status.statusFailed) →
      processTaskUpdateMaps st key tid groups = groups) ∧
    (∀ (i : Nat) (g : GroupMaps), groups[i]? = some g →
      (skipTaskMaps key tid groups)[i]? =
        some { tasks := mapDelete key g.tasks,
               completed := mapInsert key tid g.completed }) := by
  refine ⟨?_, ?_, ?_⟩
  · intro st hst i g hg
    unfold processTaskUpdateMaps
    rw [if_pos hst]
    simp [List.getElem?_map, List.getElem?_enum, hg]
  · intro st hst
    unfold processTaskUpdateMaps
    rw [if_neg hst]
  · intro i g hg
    simp [skipTaskMaps, List.getElem?_map, hg]

/-- Witness for C3 (amended) on a concrete two-group task finalized with
`success`: the second group's completed map stays empty. -/
theorem completedMap_recording_witness :
    ((Status.statusSuccess = Status.statusSuccess ∨
        Status.statusSuccess = Status.statusFailed) ∧
      ([{ tasks := [(("k"), 5)], completed := [] },
        { tasks := [(("k"), 5)], completed := [] }] : List GroupMaps)[1]? =
        some { tasks := [(("k"), 5)], completed := [] }) ∧
    (processTaskUpdateMaps Status.statusSuccess ("k") 5
        [{ tasks := [(("k"), 5)], completed := [] },
         { tasks := [(("k"), 5)], completed := [] }])[1]? =
      some { tasks := mapDelete ("k") [(("k"), 5)],
             completed := if (1 : Nat) = 0 then mapInsert ("k") 5 [] else [] } :=
  ⟨⟨Or.inl rfl, by decide⟩,
    (completedMap_recording ("k") 5
        [{ tasks := [(("k"), 5)], completed := [] },
         { tasks := [(("k"), 5)], completed := [] }]).1
      Status.statusSuccess (Or.inl rfl) 1
      { tasks := [(("k"), 5)], completed := [] } (by decide)⟩

/-! ### Suite splitting (C5) -/

theorem splitLoop_spec (t : TestEntry) (sn : String) (tests : List String)
    (cpi n : Nat) :
    ∀ (fuel i : Nat), fuel + i = n → 1 ≤ fuel →
      (1 ≤ (splitLoop t sn tests cpi n i fuel).length ∧
        (splitLoop t sn tests cpi n i fuel).length ≤ fuel) ∧
      joinSuiteTests (splitLoop t sn tests cpi n i fuel) = tests.drop (i * cpi) ∧
      ∀ (j : Nat) (e : TestEntry),
        (splitLoop t sn tests cpi n i fuel)[j]? = some e →
        e = mkSplitEntry t sn (i + j + 1)
              (if j + 1 < (splitLoop t sn tests cpi n i fuel).length
               then (tests.drop ((i + j) * cpi)).take cpi
               else tests.drop ((i + j) * cpi)) ∧
        (j + 1 < (splitLoop t sn tests cpi n i fuel).length →
          cpi ≤ tests.length - (i + j + 1) * cpi) := by
  intro fuel
  induction fuel with
  | zero => intro i h1 h2; omega
  | succ f ih =>
    intro i h1 _
    by_cases hc : tests.length - (i + 1) * cpi < cpi ∨ i + 1 = n
    · have hres : splitLoop t sn tests cpi n i (f + 1) =
          [mkSplitEntry t sn (i + 1) (tests.drop (i * cpi))] := by
        simp only [splitLoop, if_pos hc]
      rw [hres]
      refine ⟨⟨by simp, by simp⟩, ?_, ?_⟩
      · simp [joinSuiteTests, suiteTestsOf, mkSplitEntry]
      · intro j e he
        cases j with
        | zero =>
          simp only [List.getElem?_cons_zero, Option.some.injEq] at he
          subst he
          refine ⟨?_, by simp⟩
          simp
        | succ m => simp at he
    · have hcases : ¬ tests.length - (i + 1) * cpi < cpi ∧ i + 1 ≠ n := by
        constructor
        · intro hx; exact hc (Or.inl hx)
        · intro hx; exact hc (Or.inr hx)
      have hf : 1 ≤ f := by
        rcases Nat.eq_zero_or_pos f with hf0 | hf0
        · exfalso; apply hcases.2; omega
        · exact hf0
      have hres : splitLoop t sn tests cpi n i (f + 1) =
          mkSplitEntry t sn (i + 1) ((tests.drop (i * cpi)).take cpi) ::
            splitLoop t sn tests cpi n (i + 1) f := by
        simp only [splitLoop, if_neg hc]
      have hrec := ih (i + 1) (by omega) hf
      obtain ⟨⟨hlen1, hlen2⟩, hjoin, hget⟩ := hrec
      rw [hres]
      refine ⟨⟨by simp, by simpa using Nat.add_le_add_left hlen2 1⟩, ?_, ?_⟩
      · have hdrop : tests.drop ((i + 1) * cpi) = (tests.drop (i * cpi)).drop cpi := by
          rw [List.drop_drop]
          congr 1
          ring
        calc joinSuiteTests (mkSplitEntry t sn (i + 1)
                ((tests.drop (i * cpi)).take cpi) ::
                  splitLoop t sn tests cpi n (i + 1) f)
            = (tests.drop (i * cpi)).take cpi ++
                joinSuiteTests (splitLoop t sn tests cpi n (i + 1) f) := by
              simp [joinSuiteTests, suiteTestsOf, mkSplitEntry]
          _ = (tests.drop (i * cpi)).take cpi ++ tests.drop ((i + 1) * cpi) := by
              rw [hjoin]
          _ = tests.drop (i * cpi) := by rw [hdrop, List.take_append_drop]
      · intro j e he
        cases j with
        | zero =>
          simp only [List.getElem?_cons_zero, Option.some.injEq] at he
          subst he
          have hcond : 0 + 1 < (mkSplitEntry t sn (i + 1)
              ((tests.drop (i * cpi)).take cpi) ::
                splitLoop t sn tests cpi n (i + 1) f).length := by
            simp
            omega
          refine ⟨?_, fun _ => ?_⟩
          · rw [if_pos hcond]
            simp
          · have hx : i + 0 + 1 = i + 1 := by omega
            rw [hx]
            have := hcases.1
            omega
        | succ m =>
          simp only [List.getElem?_cons_succ] at he
          obtain ⟨heq, hsz⟩ := hget m e he
          have hidx1 : i + 1 + m + 1 = i + (m + 1) + 1 := by omega
          have hidx2 : (i + 1 + m) * cpi = (i + (m + 1)) * cpi := by ring_nf
          have hidx3 : (i + 1 + m + 1) * cpi = (i + (m + 1) + 1) * cpi := by
            ring_nf
          rw [hidx1, hidx2] at heq
          rw [hidx3] at hsz
          have hlcons : (mkSplitEntry t sn (i + 1)
              ((tests.drop (i * cpi)).take cpi) ::
                splitLoop t sn tests cpi n (i + 1) f).length =
              (splitLoop t sn tests cpi n (i + 1) f).length + 1 := by
            simp
          have hiff : m + 1 + 1 < (splitLoop t sn tests cpi n (i + 1) f).length + 1 ↔
              m + 1 < (splitLoop t sn tests cpi n (i + 1) f).length := by omega
          constructor
          · rw [heq, hlcons, if_congr hiff rfl rfl]
          · intro hlt
            rw [hlcons] at hlt
            exact hsz (hiff.mp hlt)

/-- C5: splitting an entry carrying a suite against a group of `n ≥ 1`
instances yields at most `n` children with chunk size
`max(len/n, MinSuiteSize)`; child `i` (0-based) is named
`<original><i+1>` and carries the `i`-th consecutive slice, of exactly the
chunk size except for the last child, which absorbs the remainder; together
the slices are the original sub-test list.  An entry without a suite is
returned unchanged as the single result. -/
theorem splitTest_spec (minS : Nat) (t : TestEntry) (n : Nat) (hn : 1 ≤ n) :
    (t.suite = none → splitTest minS t n = [t]) ∧
    (∀ su : Suite, t.suite = some su →
      (splitTest minS t n).length ≤ n ∧
      joinSuiteTests (splitTest minS t n) = su.tests ∧
      (∀ (j : Nat) (e : TestEntry), (splitTest minS t n)[j]? = some e →
        e.name = t.name ++ toString (j + 1) ∧
        e.suite = some { suiteName := su.suiteName,
                         tests := if j + 1 < (splitTest minS t n).length
                                  then (su.tests.drop
                                      (j * max (su.tests.length / n) minS)).take
                                      (max (su.tests.length / n) minS)
                                  else su.tests.drop
                                      (j * max (su.tests.length / n) minS) } ∧
        (j + 1 < (splitTest minS t n).length →
          ((su.tests.drop (j * max (su.tests.length / n) minS)).take
              (max (su.tests.length / n) minS)).length =
            max (su.tests.length / n) minS))) := by
  constructor
  · intro h
    simp [splitTest, h]
  · intro su hsu
    have hcpi : (if su.tests.length / n < minS then minS else su.tests.length / n) =
        max (su.tests.length / n) minS := by
      rcases Nat.lt_or_ge (su.tests.length / n) minS with h | h
      · simp [h, Nat.max_eq_right (Nat.le_of_lt h)]
      · simp [Nat.not_lt.mpr h, Nat.max_eq_left h]
    have hdef : splitTest minS t n =
        splitLoop t su.suiteName su.tests (max (su.tests.length / n) minS) n 0 n := by
      simp only [splitTest, hsu, hcpi]
    obtain ⟨⟨_, hlen2⟩, hjoin, hget⟩ :=
      splitLoop_spec t su.suiteName su.tests (max (su.tests.length / n) minS) n
        n 0 (by omega) hn
    rw [hdef]
    refine ⟨hlen2, by simpa using hjoin, ?_⟩
    intro j e he
    obtain ⟨heq, hsz⟩ := hget j e he
    have h0j : 0 + j + 1 = j + 1 := by omega
    have h0j2 : (0 + j) * max (su.tests.length / n) minS =
        j * max (su.tests.length / n) minS := by ring_nf
    rw [h0j, h0j2] at heq
    refine ⟨?_, ?_, ?_⟩
    · rw [heq]; rfl
    · rw [heq]; rfl
    · intro hlt
      have hle := hsz hlt
      have hle2 : max (su.tests.length / n) minS ≤
          su.tests.length - j * max (su.tests.length / n) minS := by
        have hmono : su.tests.length - (0 + j + 1) * max (su.tests.length / n) minS ≤
            su.tests.length - j * max (su.tests.length / n) minS := by
          apply Nat.sub_le_sub_left
          apply Nat.mul_le_mul_right
          omega
        exact Nat.le_trans hle hmono
      rw [List.length_take, List.length_drop]
      exact Nat.min_eq_left hle2

/-- Witness for C5 on the spec's example: a suite of 10 sub-tests against a
3-instance group with `MinSuiteSize = 2` yields children `t1,t2,t3` with
slices `[0:3]`, `[3:6]`, `[6:10]`. -/
theorem splitTest_spec_witness :
    (1 ≤ 3 ∧ exampleSuiteEntry.suite = some exampleSuite) ∧
    joinSuiteTests (splitTest 2 exampleSuiteEntry 3) = exampleSuite.tests ∧
    (splitTest 2 exampleSuiteEntry 3).map suiteTestsOf =
      [["a", "b", "c"], ["d", "e", "f"], ["g", "h", "i", "j"]] ∧
    (splitTest 2 exampleSuiteEntry 3).map TestEntry.name = ["t1", "t2", "t3"] := by
  refine ⟨⟨by omega, rfl⟩, ?_, by decide, by decide⟩
  exact ((splitTest_spec 2 exampleSuiteEntry 3 (by omega)).2 exampleSuite rfl).2.1

/-! ### Task creation: count cap and concurrency copies (C4, C6) -/

theorem updateAt_length (i : Nat) (f : α → α) :
    ∀ l : List α, (updateAt i f l).length = l.length := by
  intro l
  induction l generalizing i with
  | nil => simp [updateAt]
  | cons x xs ih =>
    cases i with
    | zero => simp [updateAt]
    | succ n => simpa [updateAt] using ih n

theorem range'_add_append (s a b : Nat) :
    List.range' s a ++ List.range' (s + a) b = List.range' s (a + b) := by
  induction a generalizing s with
  | zero => simp
  | succ a ih =>
    have h1 : s + (a + 1) = (s + 1) + a := by omega
    have h2 : a + 1 + b = (a + b) + 1 := by omega
    rw [List.range'_succ, h2, List.range'_succ, List.cons_append, h1, ih (s + 1)]

theorem capFrame_refl (ctx : CreateCtx) (ti : Nat) (h : ti = ctx.store.length) :
    CapSkipFrame ctx ctx ti ti := by
  refine ⟨rfl, ?_, h.symm, Nat.le_refl ti, rfl, rfl⟩
  simp

theorem capFrame_trans {c1 c2 c3 : CreateCtx} {t1 t2 t3 : Nat}
    (h12 : CapSkipFrame c1 c2 t1 t2) (h23 : CapSkipFrame c2 c3 t2 t3) :
    CapSkipFrame c1 c3 t1 t3 := by
  obtain ⟨ha1, ha2, ha3, ha4, ha5, ha6⟩ := h12
  obtain ⟨hb1, hb2, hb3, hb4, hb5, hb6⟩ := h23
  refine ⟨hb1.trans ha1, ?_, hb3, Nat.le_trans ha4 hb4, hb5.trans ha5,
    hb6.trans ha6⟩
  have hstart : t1 + (t2 - t1) = t2 := by omega
  have key : List.range' t1 (t2 - t1) ++ List.range' t2 (t3 - t2) =
      List.range' t1 (t3 - t1) := by
    have h := range'_add_append t1 (t2 - t1) (t3 - t2)
    rw [hstart] at h
    rw [h]
    congr 1
    omega
  rw [hb2, ha2, List.append_assoc, key]

theorem createFrame_refl (ctx : CreateCtx) (ti : Nat) :
    CreateFrame ctx ctx ti ti :=
  ⟨fun h => h, rfl, rfl⟩

theorem createFrame_trans {c1 c2 c3 : CreateCtx} {t1 t2 t3 : Nat}
    (h12 : CreateFrame c1 c2 t1 t2) (h23 : CreateFrame c2 c3 t2 t3) :
    CreateFrame c1 c3 t1 t3 :=
  ⟨fun h => h23.1 (h12.1 h), h23.2.1.trans h12.2.1, h23.2.2.trans h12.2.2⟩

theorem capFrame_toCreateFrame {c1 c2 : CreateCtx} {t1 t2 : Nat}
    (h : CapSkipFrame c1 c2 t1 t2) : CreateFrame c1 c2 t1 t2 :=
  ⟨fun _ => h.2.2.1.symm, h.2.2.2.2.1, h.2.2.2.2.2⟩

theorem createSingleTask_createFrame (ctx : CreateCtx) (ti : Nat)
    (test : TestEntry) (ci : Nat) (g : GroupC) (oi : Nat) :
    CreateFrame ctx (createSingleTask ctx ti test ci g oi).1 ti (ti + 1) := by
  unfold createSingleTask
  by_cases hcond : 0 < ctx.countArg ∧ ctx.countArg ≤ (oi : Int)
  · rw [if_pos hcond]
    exact ⟨fun h => by simp [h], rfl, rfl⟩
  · rw [if_neg hcond]
    exact ⟨fun h => by simp [h], rfl, rfl⟩

theorem createSingleTask_cap (ctx : CreateCtx) (ti : Nat) (test : TestEntry)
    (ci : Nat) (g : GroupC) (oi : Nat) (hcount : 0 < ctx.countArg)
    (hoi : ctx.countArg ≤ (oi : Int)) (hti : ti = ctx.store.length) :
    CapSkipFrame ctx (createSingleTask ctx ti test ci g oi).1 ti (ti + 1) ∧
    (createSingleTask ctx ti test ci g oi).2 =
      { test with status := Status.statusSkipped } ∧
    ((createSingleTask ctx ti test ci g oi).1.store.getLast?).map
      (fun tk => tk.test.status) = some test.status := by
  unfold createSingleTask
  rw [if_pos ⟨hcount, hoi⟩]
  refine ⟨⟨rfl, ?_, by simp [hti], by omega, rfl, rfl⟩, rfl, ?_⟩
  · simp [List.range'_one]
  · simp [List.getLast?_concat]

theorem updateTaskStatus_createFrame (cc : Nat) (ctx : CreateCtx) (tid ti : Nat) :
    CreateFrame ctx (updateTaskStatus cc ctx tid) ti ti := by
  refine ⟨fun h => ?_, rfl, rfl⟩
  simp [updateTaskStatus, updateAt_length, h]

theorem updateTaskStatus_capFrame (cc : Nat) (ctx : CreateCtx) (tid ti : Nat)
    (hti : ti = ctx.store.length) :
    CapSkipFrame ctx (updateTaskStatus cc ctx tid) ti ti := by
  refine ⟨rfl, by simp [updateTaskStatus], ?_, Nat.le_refl ti, rfl, rfl⟩
  simp [updateTaskStatus, updateAt_length, hti]

theorem appendClusterToTask_capFrame (cluster : GroupC) (ci : Nat)
    (ctx : CreateCtx) (tid ti : Nat) (hti : ti = ctx.store.length) :
    CapSkipFrame ctx (appendClusterToTask cluster ci ctx tid) ti ti := by
  refine ⟨rfl, by simp [appendClusterToTask], ?_, Nat.le_refl ti, rfl, rfl⟩
  simp [appendClusterToTask, updateAt_length, hti]

theorem foldl_updateTaskStatus_capFrame (cc : Nat) (l : List Nat) :
    ∀ (ctx : CreateCtx) (ti : Nat), ti = ctx.store.length →
      CapSkipFrame ctx (l.foldl (updateTaskStatus cc) ctx) ti ti := by
  induction l with
  | nil => intro ctx ti hti; simpa using capFrame_refl ctx ti hti
  | cons tid rest ih =>
    intro ctx ti hti
    have h1 := updateTaskStatus_capFrame cc ctx tid ti hti
    have h2 := ih (updateTaskStatus cc ctx tid) ti h1.2.2.1.symm
    simpa [List.foldl_cons] using capFrame_trans h1 h2

theorem foldl_appendClusterToTask_capFrame (cluster : GroupC) (ci : Nat)
    (l : List Nat) :
    ∀ (ctx : CreateCtx) (ti : Nat), ti = ctx.store.length →
      CapSkipFrame ctx (l.foldl (appendClusterToTask cluster ci) ctx) ti ti := by
  induction l with
  | nil => intro ctx ti hti; simpa using capFrame_refl ctx ti hti
  | cons tid rest ih =>
    intro ctx ti hti
    have h1 := appendClusterToTask_capFrame cluster ci ctx tid ti hti
    have h2 := ih (appendClusterToTask cluster ci ctx tid) ti h1.2.2.1.symm
    simpa [List.foldl_cons] using capFrame_trans h1 h2

theorem foldl_updateTaskStatus_createFrame (cc : Nat) (l : List Nat) :
    ∀ (ctx : CreateCtx) (ti : Nat),
      CreateFrame ctx (l.foldl (updateTaskStatus cc) ctx) ti ti := by
  induction l with
  | nil => intro ctx ti; exact createFrame_refl ctx ti
  | cons tid rest ih =>
    intro ctx ti
    exact createFrame_trans (updateTaskStatus_createFrame cc ctx tid ti)
      (ih (updateTaskStatus cc ctx tid) ti)

theorem appendClusterToTask_createFrame (cluster : GroupC) (ci : Nat)
    (ctx : CreateCtx) (tid ti : Nat) :
    CreateFrame ctx (appendClusterToTask cluster ci ctx tid) ti ti := by
  refine ⟨fun h => ?_, rfl, rfl⟩
  simp [appendClusterToTask, updateAt_length, h]

theorem foldl_appendClusterToTask_createFrame (cluster : GroupC) (ci : Nat)
    (l : List Nat) :
    ∀ (ctx : CreateCtx) (ti : Nat),
      CreateFrame ctx (l.foldl (appendClusterToTask cluster ci) ctx) ti ti := by
  induction l with
  | nil => intro ctx ti; exact createFrame_refl ctx ti
  | cons tid rest ih =>
    intro ctx ti
    exact createFrame_trans (appendClusterToTask_createFrame cluster ci ctx tid ti)
      (ih (appendClusterToTask cluster ci ctx tid) ti)

theorem splitsLoopSingle_createFrame (cc oi ci : Nat) (g : GroupC) (sa : Bool)
    (splits : List TestEntry) :
    ∀ (ctx : CreateCtx) (entry : TestEntry) (ti : Nat),
      CreateFrame ctx (splitsLoopSingle cc oi ci g sa ctx entry ti splits).1 ti
        (splitsLoopSingle cc oi ci g sa ctx entry ti splits).2.2 := by
  induction splits with
  | nil => intro ctx entry ti; exact createFrame_refl ctx ti
  | cons t rest ih =>
    intro ctx entry ti
    simp only [splitsLoopSingle]
    exact createFrame_trans
      (createFrame_trans (createSingleTask_createFrame ctx ti t ci g oi)
        (updateTaskStatus_createFrame cc _ ti (ti + 1)))
      (ih _ _ (ti + 1))

theorem splitsLoopSingle_cap (cc oi ci : Nat) (g : GroupC) (sa : Bool)
    (splits : List TestEntry) :
    ∀ (ctx : CreateCtx) (entry : TestEntry) (ti : Nat),
      0 < ctx.countArg → ctx.countArg ≤ (oi : Int) → ti = ctx.store.length →
      CapSkipFrame ctx (splitsLoopSingle cc oi ci g sa ctx entry ti splits).1 ti
        (splitsLoopSingle cc oi ci g sa ctx entry ti splits).2.2 := by
  induction splits with
  | nil => intro ctx entry ti _ _ hti; exact capFrame_refl ctx ti hti
  | cons t rest ih =>
    intro ctx entry ti hcount hoi hti
    simp only [splitsLoopSingle]
    have h1 := (createSingleTask_cap ctx ti t ci g oi hcount hoi hti).1
    have h2 := updateTaskStatus_capFrame cc (createSingleTask ctx ti t ci g oi).1
      ti (ti + 1) h1.2.2.1.symm
    have h12 := capFrame_trans h1 h2
    have h3 := ih _ (if sa then (createSingleTask ctx ti t ci g oi).2 else entry)
      (ti + 1) (by rw [h12.2.2.2.2.1]; exact hcount)
      (by rw [h12.2.2.2.2.1]; exact hoi) h12.2.2.1.symm
    exact capFrame_trans h12 h3

theorem clustersLoopSingle_createFrame (ms cc oi : Nat) (sel : List String)
    (idxs : List Nat) :
    ∀ (ctx : CreateCtx) (entry : TestEntry) (ti : Nat),
      CreateFrame ctx (clustersLoopSingle ms cc oi sel ctx entry ti idxs).1 ti
        (clustersLoopSingle ms cc oi sel ctx entry ti idxs).2.2 := by
  induction idxs with
  | nil => intro ctx entry ti; exact createFrame_refl ctx ti
  | cons i rest ih =>
    intro ctx entry ti
    rcases hcl : ctx.clusters[i]? with _ | cluster
    · simp only [clustersLoopSingle, hcl]
      exact ih ctx entry ti
    · by_cases hsel : (sel ≠ [] ∧ sel.contains cluster.name) ∨ sel = []
      · simp only [clustersLoopSingle, hcl, if_pos hsel]
        exact createFrame_trans
          (splitsLoopSingle_createFrame cc oi i cluster entry.suite.isNone
            (splitTest ms entry cluster.instCount) ctx entry ti)
          (ih _ _ _)
      · simp only [clustersLoopSingle, hcl, if_neg hsel]
        exact ih ctx entry ti

theorem clustersLoopSingle_cap (ms cc oi : Nat) (sel : List String)
    (idxs : List Nat) :
    ∀ (ctx : CreateCtx) (entry : TestEntry) (ti : Nat),
      0 < ctx.countArg → ctx.countArg ≤ (oi : Int) → ti = ctx.store.length →
      CapSkipFrame ctx (clustersLoopSingle ms cc oi sel ctx entry ti idxs).1 ti
        (clustersLoopSingle ms cc oi sel ctx entry ti idxs).2.2 := by
  induction idxs with
  | nil => intro ctx entry ti _ _ hti; exact capFrame_refl ctx ti hti
  | cons i rest ih =>
    intro ctx entry ti hcount hoi hti
    rcases hcl : ctx.clusters[i]? with _ | cluster
    · simp only [clustersLoopSingle, hcl]
      exact ih ctx entry ti hcount hoi hti
    · by_cases hsel : (sel ≠ [] ∧ sel.contains cluster.name) ∨ sel = []
      · simp only [clustersLoopSingle, hcl, if_pos hsel]
        set r := splitsLoopSingle cc oi i cluster entry.suite.isNone ctx entry
          ti (splitTest ms entry cluster.instCount) with hr
        have h1 := splitsLoopSingle_cap cc oi i cluster entry.suite.isNone
          (splitTest ms entry cluster.instCount) ctx entry ti hcount hoi hti
        rw [← hr] at h1
        have h2 := ih r.1 r.2.1 r.2.2 (by rw [h1.2.2.2.2.1]; exact hcount)
          (by rw [h1.2.2.2.2.1]; exact hoi) h1.2.2.1.symm
        exact capFrame_trans h1 h2
      · simp only [clustersLoopSingle, hcl, if_neg hsel]
        exact ih ctx entry ti hcount hoi hti

theorem splitsLoopMulti_createFrame (oi ci : Nat) (g : GroupC) (sa : Bool)
    (splits : List TestEntry) :
    ∀ (ctx : CreateCtx) (entry : TestEntry) (ti : Nat) (tids : List Nat),
      CreateFrame ctx (splitsLoopMulti oi ci g sa ctx entry ti tids splits).1 ti
        (splitsLoopMulti oi ci g sa ctx entry ti tids splits).2.2.1 := by
  induction splits with
  | nil => intro ctx entry ti tids; exact createFrame_refl ctx ti
  | cons t rest ih =>
    intro ctx entry ti tids
    simp only [splitsLoopMulti]
    exact createFrame_trans (createSingleTask_createFrame ctx ti t ci g oi)
      (ih _ _ (ti + 1) _)

theorem splitsLoopMulti_cap (oi ci : Nat) (g : GroupC) (sa : Bool)
    (splits : List TestEntry) :
    ∀ (ctx : CreateCtx) (entry : TestEntry) (ti : Nat) (tids : List Nat),
      0 < ctx.countArg → ctx.countArg ≤ (oi : Int) → ti = ctx.store.length →
      CapSkipFrame ctx (splitsLoopMulti oi ci g sa ctx entry ti tids splits).1 ti
        (splitsLoopMulti oi ci g sa ctx entry ti tids splits).2.2.1 := by
  induction splits with
  | nil => intro ctx entry ti tids _ _ hti; exact capFrame_refl ctx ti hti
  | cons t rest ih =>
    intro ctx entry ti tids hcount hoi hti
    simp only [splitsLoopMulti]
    have h1 := (createSingleTask_cap ctx ti t ci g oi hcount hoi hti).1
    have h2 := ih _ (if sa then (createSingleTask ctx ti t ci g oi).2 else entry)
      (ti + 1) (tids ++ [ti]) (by rw [h1.2.2.2.2.1]; exact hcount)
      (by rw [h1.2.2.2.2.1]; exact hoi) h1.2.2.1.symm
    exact capFrame_trans h1 h2

theorem selectorLoopMulti_createFrame (ms cc oi : Nat) (names : List String) :
    ∀ (ctx : CreateCtx) (entry : TestEntry) (ti : Nat) (tids : List Nat),
      CreateFrame ctx (selectorLoopMulti ms cc oi ctx entry ti tids names).1 ti
        (selectorLoopMulti ms cc oi ctx entry ti tids names).2.2.1 := by
  induction names with
  | nil => intro ctx entry ti tids; exact createFrame_refl ctx ti
  | cons name rest ih =>
    intro ctx entry ti tids
    rcases hfc : findCluster name ctx.clusters with _ | ⟨ci, cluster⟩
    · simp only [selectorLoopMulti, hfc]
      exact ih ctx entry ti tids
    · by_cases htids : tids = []
      · simp only [selectorLoopMulti, hfc, if_pos htids]
        exact createFrame_trans
          (splitsLoopMulti_createFrame oi ci cluster entry.suite.isNone
            (splitTest ms entry cluster.instCount) ctx entry ti tids)
          (ih _ _ _ _)
      · simp only [selectorLoopMulti, hfc, if_neg htids]
        exact createFrame_trans
          (foldl_appendClusterToTask_createFrame cluster ci tids ctx ti)
          (ih _ entry ti tids)

theorem selectorLoopMulti_cap (ms cc oi : Nat) (names : List String) :
    ∀ (ctx : CreateCtx) (entry : TestEntry) (ti : Nat) (tids : List Nat),
      0 < ctx.countArg → ctx.countArg ≤ (oi : Int) → ti = ctx.store.length →
      CapSkipFrame ctx (selectorLoopMulti ms cc oi ctx entry ti tids names).1 ti
        (selectorLoopMulti ms cc oi ctx entry ti tids names).2.2.1 := by
  induction names with
  | nil => intro ctx entry ti tids _ _ hti; exact capFrame_refl ctx ti hti
  | cons name rest ih =>
    intro ctx entry ti tids hcount hoi hti
    rcases hfc : findCluster name ctx.clusters with _ | ⟨ci, cluster⟩
    · simp only [selectorLoopMulti, hfc]
      exact ih ctx entry ti tids hcount hoi hti
    · by_cases htids : tids = []
      · simp only [selectorLoopMulti, hfc, if_pos htids]
        set r := splitsLoopMulti oi ci cluster entry.suite.isNone ctx entry ti
          tids (splitTest ms entry cluster.instCount) with hr
        have h1 := splitsLoopMulti_cap oi ci cluster entry.suite.isNone
          (splitTest ms entry cluster.instCount) ctx entry ti tids hcount hoi hti
        rw [← hr] at h1
        have h2 := ih r.1 r.2.1 r.2.2.1 r.2.2.2
          (by rw [h1.2.2.2.2.1]; exact hcount)
          (by rw [h1.2.2.2.2.1]; exact hoi) h1.2.2.1.symm
        exact capFrame_trans h1 h2
      · simp only [selectorLoopMulti, hfc, if_neg htids]
        have h1 := foldl_appendClusterToTask_capFrame cluster ci tids ctx ti hti
        have h2 := ih (tids.foldl (appendClusterToTask cluster ci) ctx) entry ti
          tids (by rw [h1.2.2.2.2.1]; exact hcount)
          (by rw [h1.2.2.2.2.1]; exact hoi) h1.2.2.1.symm
        exact capFrame_trans h1 h2

theorem createTask_createFrame (ctx : CreateCtx) (entry : TestEntry)
    (ti oi : Nat) :
    CreateFrame ctx (createTask ctx entry ti oi).1 ti
      (createTask ctx entry ti oi).2.2 := by
  unfold createTask
  by_cases hcc : 1 < entry.cfg.clusterCount
  · rw [if_pos hcc]
    exact createFrame_trans
      (selectorLoopMulti_createFrame ctx.minSuiteSize entry.cfg.clusterCount oi
        entry.cfg.clusterSelector ctx entry ti [])
      (foldl_updateTaskStatus_createFrame entry.cfg.clusterCount _ _ _)
  · rw [if_neg hcc]
    exact clustersLoopSingle_createFrame ctx.minSuiteSize entry.cfg.clusterCount
      oi entry.cfg.clusterSelector (List.range ctx.clusters.length) ctx entry ti

theorem createTask_cap (ctx : CreateCtx) (entry : TestEntry) (ti oi : Nat)
    (hcount : 0 < ctx.countArg) (hoi : ctx.countArg ≤ (oi : Int))
    (hti : ti = ctx.store.length) :
    CapSkipFrame ctx (createTask ctx entry ti oi).1 ti
      (createTask ctx entry ti oi).2.2 := by
  unfold createTask
  by_cases hcc : 1 < entry.cfg.clusterCount
  · rw [if_pos hcc]
    set r := selectorLoopMulti ctx.minSuiteSize entry.cfg.clusterCount oi ctx
      entry ti [] entry.cfg.clusterSelector with hr
    have h1 := selectorLoopMulti_cap ctx.minSuiteSize entry.cfg.clusterCount oi
      entry.cfg.clusterSelector ctx entry ti [] hcount hoi hti
    rw [← hr] at h1
    have h2 := foldl_updateTaskStatus_capFrame entry.cfg.clusterCount
      r.2.2.2.reverse r.1 r.2.2.1 h1.2.2.1.symm
    exact capFrame_trans h1 h2
  · rw [if_neg hcc]
    exact clustersLoopSingle_cap ctx.minSuiteSize entry.cfg.clusterCount oi
      entry.cfg.clusterSelector (List.range ctx.clusters.length) ctx entry ti
      hcount hoi hti

theorem concRetryLoop_createFrame (oi : Nat) (fuel : Nat) :
    ∀ (ctx : CreateCtx) (entry : TestEntry) (ti j : Nat),
      CreateFrame ctx (concRetryLoop oi ctx entry ti j fuel).1 ti
        (concRetryLoop oi ctx entry ti j fuel).2 := by
  induction fuel with
  | zero => intro ctx entry ti j; exact createFrame_refl ctx ti
  | succ f ih =>
    intro ctx entry ti j
    simp only [concRetryLoop]
    exact createFrame_trans (createTask_createFrame ctx entry ti oi)
      (ih _ _ _ (j + 1))

theorem concRetryLoop_cap (oi : Nat) (fuel : Nat) :
    ∀ (ctx : CreateCtx) (entry : TestEntry) (ti j : Nat),
      0 < ctx.countArg → ctx.countArg ≤ (oi : Int) → ti = ctx.store.length →
      CapSkipFrame ctx (concRetryLoop oi ctx entry ti j fuel).1 ti
        (concRetryLoop oi ctx entry ti j fuel).2 := by
  induction fuel with
  | zero => intro ctx entry ti j _ _ hti; exact capFrame_refl ctx ti hti
  | succ f ih =>
    intro ctx entry ti j hcount hoi hti
    simp only [concRetryLoop]
    set r := createTask ctx entry ti oi with hr
    have h1 := createTask_cap ctx entry ti oi hcount hoi hti
    rw [← hr] at h1
    have h2 := ih r.1 { r.2.1 with key := r.2.1.key ++ "-" ++ toString j } r.2.2
      (j + 1) (by rw [h1.2.2.2.2.1]; exact hcount)
      (by rw [h1.2.2.2.2.1]; exact hoi) h1.2.2.1.symm
    exact capFrame_trans h1 h2

theorem createTasksLoop_createFrame (tests : List TestEntry) :
    ∀ (ctx : CreateCtx) (ti oi : Nat),
      CreateFrame ctx (createTasksLoop ctx ti oi tests).1 ti
        (createTasksLoop ctx ti oi tests).2 := by
  induction tests with
  | nil => intro ctx ti oi; exact createFrame_refl ctx ti
  | cons entry rest ih =>
    intro ctx ti oi
    simp only [createTasksLoop]
    by_cases hcr : 0 < entry.cfg.concurrencyRetry
    · rw [if_pos hcr]
      exact createFrame_trans
        (concRetryLoop_createFrame oi entry.cfg.concurrencyRetry ctx entry ti 0)
        (ih _ _ (oi + 1))
    · rw [if_neg hcr]
      exact createFrame_trans (createTask_createFrame ctx entry ti oi)
        (ih _ _ (oi + 1))

theorem createTasksLoop_cap (tests : List TestEntry) :
    ∀ (ctx : CreateCtx) (ti oi : Nat),
      0 < ctx.countArg → ctx.countArg ≤ (oi : Int) → ti = ctx.store.length →
      CapSkipFrame ctx (createTasksLoop ctx ti oi tests).1 ti
        (createTasksLoop ctx ti oi tests).2 := by
  induction tests with
  | nil => intro ctx ti oi _ _ hti; exact capFrame_refl ctx ti hti
  | cons entry rest ih =>
    intro ctx ti oi hcount hoi hti
    have hoi1 : ctx.countArg ≤ ((oi + 1 : Nat) : Int) := by
      push_cast
      omega
    simp only [createTasksLoop]
    by_cases hcr : 0 < entry.cfg.concurrencyRetry
    · rw [if_pos hcr]
      have h1 := concRetryLoop_cap oi entry.cfg.concurrencyRetry ctx entry ti 0
        hcount hoi hti
      have h2 := ih _ _ (oi + 1) (by rw [h1.2.2.2.2.1]; exact hcount)
        (by rw [h1.2.2.2.2.1]; exact hoi1) h1.2.2.1.symm
      exact capFrame_trans h1 h2
    · rw [if_neg hcr]
      have h1 := createTask_cap ctx entry ti oi hcount hoi hti
      have h2 := ih _ _ (oi + 1) (by rw [h1.2.2.2.2.1]; exact hcount)
        (by rw [h1.2.2.2.2.1]; exact hoi1) h1.2.2.1.symm
      exact capFrame_trans h1 h2

theorem createTasksLoop_append (l1 l2 : List TestEntry) :
    ∀ (ctx : CreateCtx) (ti oi : Nat),
      createTasksLoop ctx ti oi (l1 ++ l2) =
        createTasksLoop (createTasksLoop ctx ti oi l1).1
          (createTasksLoop ctx ti oi l1).2 (oi + l1.length) l2 := by
  induction l1 with
  | nil =>
    intro ctx ti oi
    simp [createTasksLoop]
  | cons entry rest ih =>
    intro ctx ti oi
    simp only [List.cons_append, createTasksLoop]
    rw [show rest.append l2 = rest ++ l2 from rfl, ih]
    have harith : oi + 1 + rest.length = oi + (entry :: rest).length := by
      simp only [List.length_cons]
      omega
    rw [harith]

/-- C4 counterexample: with `--count 1` and two enabled cluster groups, the
first test entry alone queues two tasks (ids 0 and 1), not one; and the first
task created past the cap (id 2) keeps test status `added` — the cap marks
the source entry, not the already-created task's copy. -/
theorem countCap_counterexample :
    capCtx.countArg = 1 ∧
    (createTasks capCtx [capEntryA, capEntryB]).tasks = [0, 1] ∧
    (createTasks capCtx [capEntryA, capEntryB]).skipped = [2, 3] ∧
    (createTasks capCtx [capEntryA, capEntryB]).store.map
        (fun tk => tk.test.status) =
      [Status.statusAdded, Status.statusAdded, Status.statusAdded,
        Status.statusSkipped] := by
  decide

/-- C4 (amended): with a positive `--count`, the cap is keyed on the source
test entry's index: the pending queue equals the one produced from just the
first `count` entries (which can hold more than `count` tasks), every task
created from a later entry is appended — in store order — to the skipped
list and never queued, and a capped `createSingleTask` call marks the
*source entry* skipped while the stored task copy keeps its previous
status. -/
theorem createTasks_count_cap (ctx : CreateCtx) (tests : List TestEntry)
    (h : 0 < ctx.countArg) (hstore : ctx.store = []) :
    (createTasks ctx tests).tasks =
      (createTasks ctx (tests.take ctx.countArg.toNat)).tasks ∧
    (createTasks ctx tests).skipped =
      (createTasks ctx (tests.take ctx.countArg.toNat)).skipped ++
        List.range'
          (createTasks ctx (tests.take ctx.countArg.toNat)).store.length
          ((createTasks ctx tests).store.length -
            (createTasks ctx (tests.take ctx.countArg.toNat)).store.length) ∧
    (∀ (ti : Nat) (test : TestEntry) (ci : Nat) (g : GroupC) (oi : Nat),
      ctx.countArg ≤ (oi : Int) → ti = ctx.store.length →
      (createSingleTask ctx ti test ci g oi).1.tasks = ctx.tasks ∧
      (createSingleTask ctx ti test ci g oi).1.skipped = ctx.skipped ++ [ti] ∧
      (createSingleTask ctx ti test ci g oi).2.status = Status.statusSkipped ∧
      ((createSingleTask ctx ti test ci g oi).1.store.getLast?).map
        (fun tk => tk.test.status) = some test.status) := by
  have h0 : (0 : Nat) = ctx.store.length := by rw [hstore]; rfl
  have hpart3 : ∀ (ti : Nat) (test : TestEntry) (ci : Nat) (g : GroupC)
      (oi : Nat), ctx.countArg ≤ (oi : Int) → ti = ctx.store.length →
      (createSingleTask ctx ti test ci g oi).1.tasks = ctx.tasks ∧
      (createSingleTask ctx ti test ci g oi).1.skipped = ctx.skipped ++ [ti] ∧
      (createSingleTask ctx ti test ci g oi).2.status = Status.statusSkipped ∧
      ((createSingleTask ctx ti test ci g oi).1.store.getLast?).map
        (fun tk => tk.test.status) = some test.status := by
    intro ti test ci g oi hoi hti
    obtain ⟨hframe, hmut, hlast⟩ := createSingleTask_cap ctx ti test ci g oi h
      hoi hti
    refine ⟨hframe.1, ?_, by rw [hmut], hlast⟩
    rw [hframe.2.1]
    have hone : ti + 1 - ti = 1 := by omega
    rw [hone, List.range'_one]
  by_cases hlen : tests.length ≤ ctx.countArg.toNat
  · rw [List.take_of_length_le hlen]
    exact ⟨rfl, by simp, hpart3⟩
  · have hsplit : tests.take ctx.countArg.toNat ++ tests.drop ctx.countArg.toNat
        = tests := List.take_append_drop _ _
    have happ := createTasksLoop_append (tests.take ctx.countArg.toNat)
      (tests.drop ctx.countArg.toNat) ctx 0 0
    rw [hsplit] at happ
    have hgen := createTasksLoop_createFrame (tests.take ctx.countArg.toNat)
      ctx 0 0
    have hti := hgen.1 h0
    have htl : (tests.take ctx.countArg.toNat).length = ctx.countArg.toNat := by
      rw [List.length_take]
      omega
    have hcount2 : 0 <
        (createTasksLoop ctx 0 0 (tests.take ctx.countArg.toNat)).1.countArg := by
      rw [hgen.2.1]
      exact h
    have hoi2 :
        (createTasksLoop ctx 0 0 (tests.take ctx.countArg.toNat)).1.countArg ≤
          ((0 + (tests.take ctx.countArg.toNat).length : Nat) : Int) := by
      rw [hgen.2.1, Nat.zero_add, htl]
      omega
    have hcap := createTasksLoop_cap (tests.drop ctx.countArg.toNat)
      (createTasksLoop ctx 0 0 (tests.take ctx.countArg.toNat)).1
      (createTasksLoop ctx 0 0 (tests.take ctx.countArg.toNat)).2
      (0 + (tests.take ctx.countArg.toNat).length) hcount2 hoi2 hti
    refine ⟨?_, ?_, hpart3⟩
    · unfold createTasks
      rw [happ]
      exact hcap.1
    · unfold createTasks
      rw [happ, hcap.2.1, ← hti, hcap.2.2.1]

/-- Witness for C4 (amended) at the concrete capped context: the queue from
both entries equals the queue from the first entry alone. -/
theorem createTasks_count_cap_witness :
    (0 < capCtx.countArg ∧ capCtx.store = []) ∧
    (createTasks capCtx [capEntryA, capEntryB]).tasks =
      (createTasks capCtx
        ([capEntryA, capEntryB].take capCtx.countArg.toNat)).tasks :=
  ⟨⟨by decide, rfl⟩,
    (createTasks_count_cap capCtx [capEntryA, capEntryB] (by decide) rfl).1⟩

/-- C6 (evaluation at the failing input): with `ConcurrencyRetry = 2` on one
cluster group, task creation makes exactly two copies and queues both, but
the two copies carry the *same* key `c_t`: `createSingleTask` recomputes the
key from selector and name, ignoring the copy-index suffix that `createTasks`
applies to the source entry's key field. -/
theorem concurrencyRetry_copies_share_key :
    (createTasks crCtx [crEntry]).store.length = 2 ∧
    (createTasks crCtx [crEntry]).store.map (fun tk => tk.test.key) =
      [("c_t"), ("c_t")] ∧
    ¬ ((createTasks crCtx [crEntry]).store.map (fun tk => tk.test.key)).Nodup ∧
    (createTasks crCtx [crEntry]).tasks = [0, 1] := by
  decide

/-! ### Report taxonomy for skipped-no-clusters (C7) -/

theorem hasFailedCluster_iff (task : ReportTask) :
    hasFailedCluster task = true ↔
      ∃ g ∈ task.groups, ∀ st ∈ g, st = ClusterState.notAvailable := by
  simp only [hasFailedCluster, List.any_eq_true, decide_eq_true_eq]
  constructor
  · rintro ⟨g, hg, hc⟩
    exact ⟨g, hg, fun st hst =>
      of_decide_eq_true ((List.countP_eq_length.mp hc) st hst)⟩
  · rintro ⟨g, hg, hall⟩
    exact ⟨g, hg,
      List.countP_eq_length.mpr (fun a ha => decide_eq_true (hall a ha))⟩

/-- C7: a completed task with status `skipped-no-clusters` produces a skip
message (and does not count as a failure) exactly when some required cluster
group has every instance `not-available`; otherwise it produces a failure
test case counted in the failure totals. -/
theorem skippedNoClusters_reporting (task : ReportTask) (tt f : Nat)
    (h : task.status = Status.statusSkippedSinceNoClusters) :
    ((∃ g ∈ task.groups, ∀ st ∈ g, st = ClusterState.notAvailable) →
      ((generateTestCaseReport task tt f).1.skipMsg).isSome = true ∧
      (generateTestCaseReport task tt f).1.failureMsg = none ∧
      (generateTestCaseReport task tt f).2.2 = f) ∧
    (¬(∃ g ∈ task.groups, ∀ st ∈ g, st = ClusterState.notAvailable) →
      ((generateTestCaseReport task tt f).1.failureMsg).isSome = true ∧
      (generateTestCaseReport task tt f).1.skipMsg = none ∧
      (generateTestCaseReport task tt f).2.2 = f + 1) := by
  constructor
  · intro hex
    have hfc := (hasFailedCluster_iff task).mpr hex
    simp [generateTestCaseReport, h, hfc]
  · intro hnex
    have hfc : hasFailedCluster task = false := by
      by_contra hb
      exact hnex ((hasFailedCluster_iff task).mp (by simpa using hb))
    simp [generateTestCaseReport, h, hfc]

/-- Witness for C7: one required group whose single instance is
`not-available` yields a skip message and unchanged failure count. -/
theorem skippedNoClusters_reporting_witness :
    ({ name := ("x"), status := Status.statusSkippedSinceNoClusters,
       skipMessage := (""), groups := [[ClusterState.notAvailable]] } :
        ReportTask).status = Status.statusSkippedSinceNoClusters ∧
    ((generateTestCaseReport
        { name := ("x"), status := Status.statusSkippedSinceNoClusters,
          skipMessage := (""), groups := [[ClusterState.notAvailable]] }
        0 0).1.skipMsg).isSome = true := by
  refine ⟨rfl, ((skippedNoClusters_reporting _ 0 0 rfl).1 ?_).1⟩
  exact ⟨[ClusterState.notAvailable], by simp, by simp⟩

/-! ### No rerun-request with a zero restart budget (C8) -/

/-- C8: when `RetestConfig.RestartCount` is zero, no execution path of the
supervisor produces the status `rerun-request`: the decided status, the
status stored on the entry, and the status of the appended execution record
all differ from `rerun-request`. -/
theorem restartCountZero_no_rerun (cfg : RetestConfig)
    (h : cfg.restartCount = 0) (runFailed matched : Bool) (execCount : Nat)
    (anyClusterDead : Bool) (t : TestEntry) (fileName : String) :
    executeTaskStatus cfg runFailed matched execCount anyClusterDead ≠
      Status.statusRerunRequest ∧
    (updateTestExecution t fileName
        (executeTaskStatus cfg runFailed matched execCount anyClusterDead)).status ≠
      Status.statusRerunRequest ∧
    ((updateTestExecution t fileName
        (executeTaskStatus cfg runFailed matched execCount
          anyClusterDead)).executions.getLast?).map
        TestEntryExecution.status ≠ some Status.statusRerunRequest := by
  have hne : executeTaskStatus cfg runFailed matched execCount anyClusterDead ≠
      Status.statusRerunRequest := by
    unfold executeTaskStatus
    rw [h]
    cases runFailed <;> cases anyClusterDead <;> simp
  refine ⟨hne, ?_, ?_⟩
  · simpa [updateTestExecution] using hne
  · simp only [updateTestExecution, List.getLast?_concat, Option.map_some']
    intro hc
    exact hne (Option.some.inj hc)

/-- Witness for C8 at a concrete configuration with patterns but a zero
restart budget, on a failed, pattern-matching attempt. -/
theorem restartCountZero_no_rerun_witness :
    ({ patterns := [("FLAKE")], restartCount := 0, allowedRetests := 1,
       retestFailResult := ("") } : RetestConfig).restartCount = 0 ∧
    executeTaskStatus
      { patterns := [("FLAKE")], restartCount := 0, allowedRetests := 1,
        retestFailResult := ("") } true true 0 false ≠
      Status.statusRerunRequest :=
  ⟨rfl,
    (restartCountZero_no_rerun
      { patterns := [("FLAKE")], restartCount := 0, allowedRetests := 1,
        retestFailResult := ("") } rfl true true 0 false
      { kind := TestKind.goTestKind, name := ("t"), tags := (""), key := (""),
        status := Status.statusAdded, suite := none, runScript := (""),
        executions := [],
        cfg := { cfgName := (""), clusterSelector := [], clusterCount := 1,
                 concurrencyRetry := 0 } } ("f")).1⟩

/-- Witness for C10 on a concrete busy instance: it becomes ready with its
handles cleared. -/
theorem makeInstancesReady_cas_witness :
    ({ state := ClusterState.busy, startCount := 1, executions := [],
       taskCancel := true, currentTask := "t", retestCounter := 0 } :
        ClusterInstance).state = ClusterState.busy →
    (makeInstanceReady
        { state := ClusterState.busy, startCount := 1, executions := [],
          taskCancel := true, currentTask := "t", retestCounter := 0 }).state =
      ClusterState.ready :=
  fun h =>
    (((makeInstancesReady_cas
        [{ state := ClusterState.busy, startCount := 1, executions := [],
           taskCancel := true, currentTask := "t", retestCounter := 0 }]).2
      _ (by simp)).1).1 h

end Cloudtest
